import Mathlib

/-!
Verification of the knowledge-store core of this repository
(`src/mcpserver/facade/knowledge_db.py`, class `LightweightKnowledgeDB`)
against its natural-language specification.

Modelling conventions (shallow embedding):
* Timestamps are natural numbers (seconds).  The Python code stores ISO-8601
  strings produced by one clock and compares them either lexicographically
  (`max(..., key=...)`, `list.sort(key=...)`) or by parsing and subtracting
  (`total_seconds()`); on same-format strings both orders coincide with the
  numeric order of the underlying instants, so `Nat` timestamps are
  order-faithful.  The several `datetime.now()` calls inside one operation are
  modelled as a single `now` parameter.
* The MD5-based `_generate_failure_id` digest is modelled by the content
  string `testCase ++ ":" ++ error` itself.  Every theorem below uses only
  that the identifier is a deterministic function of `(testCase, error)`;
  none relies on distinct inputs having distinct identifiers.
* The file system is an association list from file name to file content; a
  content is either a well-formed `TestCaseDocument` or `corrupt` (a file
  whose `json.load` raises `JSONDecodeError`).  Python exceptions that the
  code does not catch are modelled with `Except PyError`.
* Python list idioms are reproduced exactly: `lst[-10:]` is `pyTakeLast 10`,
  signed indexing `lst[i]` is `pyGet`, `max(lst, key=...)` returns the first
  maximum (`pyMaxByTimestamp`), and `list.sort(key=..., reverse=True)` is the
  stable descending sort `sortByKeyDesc` (stable sorts by a fixed key are
  extensionally unique, so any stable implementation is the Python one).
-/

namespace KnowledgeDB

/-! ## Python list and string idioms -/

/-- Python `lst[-n:]`: the last `n` elements of a list (all of it when it is
shorter than `n`). -/
def pyTakeLast (n : Nat) (l : List α) : List α :=
  l.drop (l.length - n)

/-- Replace the first element satisfying `p` by its image under `f`, leaving
everything else in place.  This is the `for ... if ...: mutate; break` idiom
used by `save_failure` over `failure_history`. -/
def updateFirst (p : α → Bool) (f : α → α) : List α → List α
  | [] => []
  | x :: xs => if p x then f x :: xs else x :: updateFirst p f xs

/-- Apply `f` to the last element of a list (Python `lst[-1]` mutation). -/
def setLast (f : α → α) : List α → List α
  | [] => []
  | [x] => [f x]
  | x :: y :: ys => x :: setLast f (y :: ys)

/-- Resolve a signed Python index against a list of length `len`:
`0 ≤ i < len` addresses from the front, `-len ≤ i < 0` from the back, and
anything else raises `IndexError` (modelled as `none`). -/
def pyIndex (len : Nat) (i : Int) : Option Nat :=
  if 0 ≤ i ∧ i < (len : Int) then some i.toNat
  else if 0 ≤ i + (len : Int) ∧ i < 0 then some (i + (len : Int)).toNat
  else none

/-- Python `lst[i]` with signed indexing; `none` models `IndexError`. -/
def pyGet (l : List α) (i : Int) : Option α :=
  (pyIndex l.length i).bind fun j => l[j]?

/-- Write through a signed Python index: `lst[i] = a` (mutating the list in
place).  Out-of-range indices leave the list unchanged; the code only reaches
this after `pyGet` succeeded. -/
def pySet (l : List α) (i : Int) (a : α) : List α :=
  match pyIndex l.length i with
  | some j => l.set j a
  | none => l

/-- Stable insertion step for a descending sort by `key`: the inserted
element came earlier in the original list, so it passes a later element only
when that element's key is strictly larger. -/
def insertDesc (key : α → Nat) (x : α) : List α → List α
  | [] => [x]
  | y :: ys => if key x < key y then y :: insertDesc key x ys else x :: y :: ys

/-- Stable descending sort by a `Nat` key: the model of Python's
`list.sort(key=..., reverse=True)`. -/
def sortByKeyDesc (key : α → Nat) : List α → List α
  | [] => []
  | x :: xs => insertDesc key x (sortByKeyDesc key xs)

/-- Python `needle in hay` on character lists. -/
def charsContain [BEq α] : List α → List α → Bool
  | _, [] => true
  | [], _ :: _ => false
  | x :: xs, n :: ns =>
    ((x :: xs).take (n :: ns).length == n :: ns) || charsContain xs (n :: ns)

/-- Python substring test `needle in hay`. -/
def strContains (hay needle : String) : Bool :=
  charsContain hay.toList needle.toList

/-- Python `s.lower()` (ASCII case folding, which covers every string the
fixtures and the stored documents use). -/
def strToLower (s : String) : String :=
  (s.toList.map Char.toLower).asString

/-- Suffix test `name.endswith(".json")` / the `*.json` glob filter. -/
def strEndsWith (s suffix : String) : Bool :=
  let sl := s.toList
  let tl := suffix.toList
  sl.drop (sl.length - tl.length) == tl

/-- Accumulator pass of `pySplitWs`. -/
def wordsAux : List Char → List Char → List String
  | [], acc => if acc.isEmpty then [] else [acc.reverse.asString]
  | c :: cs, acc =>
    if c.isWhitespace then
      if acc.isEmpty then wordsAux cs [] else acc.reverse.asString :: wordsAux cs []
    else wordsAux cs (c :: acc)

/-- Python `s.split()`: split on whitespace runs, dropping empty pieces. -/
def pySplitWs (s : String) : List String :=
  wordsAux s.toList []

/-- Python `s.strip()` restricted to spaces (the only whitespace that can
survive the sanitising filter in `_generate_testcase_filename`). -/
def stripSpaces (cs : List Char) : List Char :=
  ((cs.dropWhile (· == ' ')).reverse.dropWhile (· == ' ')).reverse

/-- Insertion-ordered counter update: `d[k] = d.get(k, 0) + v` on a Python
dict modelled as an association list. -/
def bump (m : List (String × Nat)) (k : String) (v : Nat) : List (String × Nat) :=
  if m.any (fun p => p.1 == k) then
    m.map (fun p => if p.1 == k then (p.1, p.2 + v) else p)
  else m ++ [(k, v)]

/-! ## Data model -/

/-- Uncaught Python exceptions that can escape a knowledge-store operation. -/
inductive PyError where
  | jsonDecodeError
  | indexError
deriving DecidableEq

/-- One tester note appended by `update_failure_bug_status`. -/
structure TesterNote where
  timestamp : Nat
  note : String
  classification : String
deriving DecidableEq

/-- One point-in-time observation of a failure, as stored inside
`recent_occurrences`. -/
structure Occurrence where
  timestamp : Nat
  error : String
  stackTrace : String
  isBug : Option Bool
  bug_status_updated : Option Nat
  tester_notes : List TesterNote
deriving DecidableEq

/-- One failure identity inside a test-case document.  `last_seen` is absent
on a freshly appended record (the code only writes it on a merge), which is
why the sort key falls back to `first_seen`. -/
structure FailureRecord where
  failure_id : String
  timestamp : Nat
  status : String
  filePath : String
  failedStep : String
  first_seen : Nat
  last_seen : Option Nat
  occurrence_count : Nat
  recent_occurrences : List Occurrence
deriving DecidableEq

/-- The per-test-case JSON document.  `last_updated` is absent on the empty
shell and written by every `save_failure`. -/
structure TestCaseDocument where
  testCase : String
  created : Nat
  total_failures : Nat
  unique_errors : Nat
  failure_history : List FailureRecord
  last_updated : Option Nat
deriving DecidableEq

/-- The input observation (`failure_data` after the `.get(..., default)`
lookups of `save_failure`). -/
structure FailureData where
  testCase : String
  error : String
  stackTrace : String
  status : String
  filePath : String
  failedStep : String
deriving DecidableEq

/-- Content of one stored file: a parsed document, or a file whose
`json.load` raises `JSONDecodeError`. -/
inductive FileContent where
  | corrupt
  | valid (d : TestCaseDocument)
deriving DecidableEq

/-- The `testcases/` directory: file name to content, in iteration order. -/
abbrev Store := List (String × FileContent)

/-! ## Document store -/

/-- Embeds `_generate_failure_id`: the MD5 digest of
`f"{test_case}:{error}"` truncated to 12 characters, modelled by the hashed
content string itself (see the header: only determinism is used). -/
def generate_failure_id (test_case error : String) : String :=
  test_case ++ ":" ++ error

/-- Embeds `_generate_testcase_filename`: keep alphanumerics, space, hyphen
and underscore, strip, replace spaces by underscores, cap at 200 characters,
append `.json`. -/
def generate_testcase_filename (test_case : String) : String :=
  let kept := test_case.toList.filter
    (fun c => c.isAlphanum || c == ' ' || c == '-' || c == '_')
  let safe := ((stripSpaces kept).map (fun c => if c == ' ' then '_' else c)).take 200
  String.mk safe ++ ".json"

/-- First file content stored under `name`, if any. -/
def lookupFile (s : Store) (name : String) : Option FileContent :=
  (s.find? (fun p => p.1 == name)).map (fun p => p.2)

/-- Overwrite the file `name` (or create it at the end of the directory).
File names are unique on a real file system, so replacing the first entry is
a full overwrite. -/
def writeFile : Store → String → FileContent → Store
  | [], name, c => [(name, c)]
  | p :: ps, name, c => if p.1 == name then (name, c) :: ps else p :: writeFile ps name c

/-- Load a test-case document: a missing, corrupt or unreadable file behaves
as absent (the `try/except` around the read in `save_failure`). -/
def loadTestcaseDoc (s : Store) (name : String) : Option TestCaseDocument :=
  match lookupFile s name with
  | some (.valid d) => some d
  | _ => none

/-- The empty-shell document created when no readable file exists. -/
def freshDoc (now : Nat) (test_case : String) : TestCaseDocument :=
  { testCase := test_case, created := now, total_failures := 0,
    unique_errors := 0, failure_history := [], last_updated := none }

/-- Sort key of `failure_history.sort(key=lambda x: x.get("last_seen",
x.get("first_seen", "")), reverse=True)`. -/
def recordSortKey (r : FailureRecord) : Nat :=
  r.last_seen.getD r.first_seen

/-! ## Occurrence merger (`save_failure`) -/

/-- The occurrence dictionary appended by `save_failure`. -/
def mkOccurrence (now : Nat) (error stackTrace : String) : Occurrence :=
  { timestamp := now, error := error, stackTrace := stackTrace,
    isBug := none, bug_status_updated := none, tester_notes := [] }

/-- Python `max(recent_occurrences, key=lambda x: x.get("timestamp", ""))`:
the first element with maximal timestamp. -/
def pyMaxByTimestamp : List Occurrence → Option Occurrence
  | [] => none
  | o :: os =>
    some (os.foldl (fun best x => if best.timestamp < x.timestamp then x else best) o)

/-- The dedup-window test of `save_failure`: the observation is *not* a new
occurrence when the newest stored occurrence is less than 300 seconds old and
carries the same error and stack trace. -/
def isNewOccurrence (now : Nat) (fd : FailureData) (occs : List Occurrence) : Bool :=
  match pyMaxByTimestamp occs with
  | none => true
  | some latest =>
    !(decide ((now : Int) - (latest.timestamp : Int) < 300)
      && latest.error == fd.error && latest.stackTrace == fd.stackTrace)

/-- The in-place update `save_failure` applies to the matching
`FailureRecord`: merge a genuinely new occurrence (bump the count, refresh
`last_seen`, append, keep the last 10) or, inside the dedup window, only
refresh `last_seen`. -/
def mergeIntoRecord (now : Nat) (fd : FailureData) (r : FailureRecord) : FailureRecord :=
  if isNewOccurrence now fd r.recent_occurrences then
    { r with
      occurrence_count := r.occurrence_count + 1,
      last_seen := some now,
      recent_occurrences :=
        pyTakeLast 10 (r.recent_occurrences ++ [mkOccurrence now fd.error fd.stackTrace]) }
  else
    { r with last_seen := some now }

/-- The fresh `FailureRecord` appended when no record matches the id
(`new_failure_entry` plus the not-found `update`). -/
def newFailureRecord (now : Nat) (fd : FailureData) (fid : String) : FailureRecord :=
  { failure_id := fid, timestamp := now, status := fd.status,
    filePath := fd.filePath, failedStep := fd.failedStep,
    first_seen := now, last_seen := none, occurrence_count := 1,
    recent_occurrences := [mkOccurrence now fd.error fd.stackTrace] }

/-- Embeds the document-level body of `save_failure`: load result in, written
document and returned failure id out. -/
def save_failure_doc (now : Nat) (fd : FailureData) (loaded : Option TestCaseDocument) :
    TestCaseDocument × String :=
  let fid := generate_failure_id fd.testCase fd.error
  let d := loaded.getD (freshDoc now fd.testCase)
  let found := d.failure_history.any (fun r => r.failure_id == fid)
  let history :=
    if found then
      updateFirst (fun r => r.failure_id == fid) (mergeIntoRecord now fd) d.failure_history
    else d.failure_history ++ [newFailureRecord now fd fid]
  let d' :=
    { d with
      failure_history := sortByKeyDesc recordSortKey history,
      unique_errors := if found then d.unique_errors else d.unique_errors + 1,
      total_failures := d.total_failures + 1,
      last_updated := some now }
  (d', fid)

/-- Embeds `save_failure` at the store level: resolve the file name, load (a
corrupt file degrades to the empty shell), merge, write back.  Write errors
are best-effort in the source (warning printed, id still returned), so the
write always succeeds here. -/
def save_failure (now : Nat) (fd : FailureData) (s : Store) : Store × String :=
  let fname := generate_testcase_filename fd.testCase
  let (d', fid) := save_failure_doc now fd (loadTestcaseDoc s fname)
  (writeFile s fname (.valid d'), fid)

/-! ## Bug-status updater (`update_failure_bug_status`) -/

/-- The note entry appended to the most recent occurrence. -/
def mkTesterNote (now : Nat) (notes : String) (is_bug : Bool) : TesterNote :=
  { timestamp := now, note := notes,
    classification := if is_bug then "bug" else "not_bug" }

/-- The mutation `update_failure_bug_status` applies to the selected
`FailureRecord`: set `isBug` and `bug_status_updated` on the most recent
occurrence when one exists, then append a tester note to it when `notes` is
non-empty.  An empty `recent_occurrences` list is left untouched. -/
def applyBugUpdate (now : Nat) (is_bug : Bool) (notes : String) (r : FailureRecord) :
    FailureRecord :=
  let occs := r.recent_occurrences
  let occs1 :=
    if occs.isEmpty then occs
    else setLast (fun o => { o with isBug := some is_bug, bug_status_updated := some now }) occs
  let occs2 :=
    if notes ≠ "" ∧ ¬occs1.isEmpty then
      setLast (fun o => { o with tester_notes := o.tester_notes ++ [mkTesterNote now notes is_bug] }) occs1
    else occs1
  { r with recent_occurrences := occs2 }

/-- File-name resolution of `update_failure_bug_status`: first the sanitised
file name; if that file does not exist, the first file whose parsed document
has exactly the requested `testCase` (unparsable files skipped by the inner
`try/except`). -/
def resolveTestcaseFile (s : Store) (test_case_name : String) : Option String :=
  let fname := generate_testcase_filename test_case_name
  if s.any (fun p => p.1 == fname) then some fname
  else
    (s.find? (fun p =>
      match p.2 with
      | .valid d => d.testCase == test_case_name
      | .corrupt => false)).map (fun p => p.1)

/-- Embeds `update_failure_bug_status`.  The surrounding `try` catches
`FileNotFoundError`, `JSONDecodeError` and `OSError` (returning `False`), but
not the `IndexError` a negative `failure_index` below `-len` raises at
`failure_history[failure_index]`, which therefore escapes. -/
def update_failure_bug_status (now : Nat) (s : Store) (test_case_name : String)
    (is_bug : Bool) (tester_notes : String) (failure_index : Int) :
    Except PyError (Bool × Store) :=
  match resolveTestcaseFile s test_case_name with
  | none => .ok (false, s)
  | some f =>
    match lookupFile s f with
    | some (.valid d) =>
      let hist := d.failure_history
      if hist.isEmpty || (hist.length : Int) ≤ failure_index then .ok (false, s)
      else
        match pyGet hist failure_index with
        | none => .error .indexError
        | some r =>
          let d' := { d with
            failure_history := pySet hist failure_index (applyBugUpdate now is_bug tester_notes r) }
          .ok (true, writeFile s f (.valid d'))
    | _ => .ok (false, s)

/-! ## Similarity search (`find_similar_failures`) -/

/-- The match test of `find_similar_failures` for one stored record: the
query test case is a (case-insensitive) substring of the document's test
case, or one of the first three words of the query error occurs in the
record's top-level `error` field.  Stored `FailureRecord`s have no top-level
`error` key (errors live inside the occurrences), so
`failure.get("error", "")` is the empty string. -/
def similarMatch (test_case error : String) (docName : String) : Bool :=
  strContains (strToLower docName) (strToLower test_case)
    || ((pySplitWs (strToLower error)).take 3).any (fun kw => strContains "" kw)

/-- Embeds `find_similar_failures`.  The read loop has no `try/except`, so
the first corrupt file aborts the whole scan with `JSONDecodeError`. -/
def find_similar_failures (test_case error : String) (s : Store) :
    Except PyError (List (String × FailureRecord)) := do
  let collected ← s.foldlM (fun (acc : List (String × FailureRecord)) p => do
    if strEndsWith p.1 ".json" then
      match p.2 with
      | .corrupt => throw PyError.jsonDecodeError
      | .valid d =>
        pure (acc ++ (d.failure_history.filter
          (fun _ => similarMatch test_case error d.testCase)).map
          (fun r => (d.testCase, r)))
    else pure acc) []
  pure (sortByKeyDesc (fun p => p.2.occurrence_count) collected)

/-! ## Statistics aggregator (`get_failure_stats`, `get_bug_statistics`) -/

/-- The aggregate returned by `get_failure_stats` (Python dicts as
insertion-ordered association lists). -/
structure FailureStats where
  total_testcases : Nat
  total_failures : Nat
  total_unique_errors : Nat
  failure_types : List (String × Nat)
  most_common_errors : List (String × Nat)
  top_failing_testcases : List (String × Nat × Nat)
deriving DecidableEq

/-- Running accumulator of the `get_failure_stats` scan. -/
structure StatsAcc where
  total_failures : Nat
  total_unique_errors : Nat
  failure_types : List (String × Nat)
  most_common_errors : List (String × Nat)
  testcase_stats : List (String × Nat × Nat)
deriving DecidableEq

/-- `error.split('\n')[0][:100]`: first line of the error, capped at 100
characters.  The stored top-level `error` field is always absent, hence
the empty string (see `similarMatch`). -/
def errorKey (error : String) : String :=
  ((error.toList.takeWhile (fun c => c ≠ '\n')).take 100).asString

/-- One document's contribution to the `get_failure_stats` accumulator. -/
def statsStep (acc : StatsAcc) (d : TestCaseDocument) : StatsAcc :=
  let inner := d.failure_history.foldl (fun (a : StatsAcc) r =>
    { a with
      failure_types := bump a.failure_types r.filePath r.occurrence_count,
      most_common_errors := bump a.most_common_errors (errorKey "") r.occurrence_count }) acc
  { inner with
    total_failures := inner.total_failures + d.total_failures,
    total_unique_errors := inner.total_unique_errors + d.unique_errors,
    testcase_stats := inner.testcase_stats ++ [(d.testCase, d.total_failures, d.unique_errors)] }

/-- Embeds `get_failure_stats`.  The read loop has no `try/except`, so a
corrupt file aborts the whole scan with `JSONDecodeError`. -/
def get_failure_stats (s : Store) : Except PyError FailureStats := do
  let jsonFiles := s.filter (fun p => strEndsWith p.1 ".json")
  let acc ← jsonFiles.foldlM (fun (a : StatsAcc) p =>
    match p.2 with
    | .corrupt => throw PyError.jsonDecodeError
    | .valid d => pure (statsStep a d))
    { total_failures := 0, total_unique_errors := 0, failure_types := [],
      most_common_errors := [], testcase_stats := [] }
  pure
    { total_testcases := jsonFiles.length,
      total_failures := acc.total_failures,
      total_unique_errors := acc.total_unique_errors,
      failure_types := (sortByKeyDesc (fun p => p.2) acc.failure_types).take 10,
      most_common_errors := (sortByKeyDesc (fun p => p.2) acc.most_common_errors).take 5,
      top_failing_testcases := (sortByKeyDesc (fun p => p.2.1) acc.testcase_stats).take 10 }

/-- Per-test-case bucket entry of `get_bug_statistics`. -/
structure TestcaseBugEntry where
  testCase : String
  bugs : Nat
  non_bugs : Nat
  pending : Nat
deriving DecidableEq

/-- The aggregate returned by `get_bug_statistics`.  The Python float
`bug_classification_rate` is modelled as an exact rational. -/
structure BugStats where
  total_failures : Nat
  classified_as_bugs : Nat
  classified_as_not_bugs : Nat
  pending_classification : Nat
  bug_classification_rate : ℚ
  testcases_with_bugs : List TestcaseBugEntry
  testcases_without_bugs : List TestcaseBugEntry
deriving DecidableEq

/-- The classification flag `get_bug_statistics` reads for one record: the
`isBug` of the *last* entry of `recent_occurrences`, `None` when the list is
empty.  Older occurrences are never consulted. -/
def recordBugFlag (r : FailureRecord) : Option Bool :=
  match r.recent_occurrences.getLast? with
  | none => none
  | some o => o.isBug

/-- One document's contribution to the `get_bug_statistics` counters and
buckets. -/
def bugStatsStep (acc : BugStats) (d : TestCaseDocument) : BugStats :=
  let counted := d.failure_history.foldl (fun (c : Nat × Nat × Nat × Nat) r =>
    match recordBugFlag r with
    | some true => (c.1 + 1, c.2.1 + 1, c.2.2.1, c.2.2.2)
    | some false => (c.1 + 1, c.2.1, c.2.2.1 + 1, c.2.2.2)
    | none => (c.1 + 1, c.2.1, c.2.2.1, c.2.2.2 + 1)) (0, 0, 0, 0)
  let acc :=
    { acc with
      total_failures := acc.total_failures + counted.1,
      classified_as_bugs := acc.classified_as_bugs + counted.2.1,
      classified_as_not_bugs := acc.classified_as_not_bugs + counted.2.2.1,
      pending_classification := acc.pending_classification + counted.2.2.2 }
  if 0 < counted.2.1 then
    { acc with testcases_with_bugs := acc.testcases_with_bugs ++
        [{ testCase := d.testCase, bugs := counted.2.1,
           non_bugs := counted.2.2.1, pending := counted.2.2.2 }] }
  else if 0 < counted.2.2.1 then
    { acc with testcases_without_bugs := acc.testcases_without_bugs ++
        [{ testCase := d.testCase, bugs := 0,
           non_bugs := counted.2.2.1, pending := counted.2.2.2 }] }
  else acc

/-- Embeds `get_bug_statistics`: full scan (no `try/except`, so a corrupt
file aborts with `JSONDecodeError`), then the classification rate with its
division-by-zero guard. -/
def get_bug_statistics (s : Store) : Except PyError BugStats := do
  let acc ← (s.filter (fun p => strEndsWith p.1 ".json")).foldlM
    (fun (a : BugStats) p =>
      match p.2 with
      | .corrupt => throw PyError.jsonDecodeError
      | .valid d => pure (bugStatsStep a d))
    { total_failures := 0, classified_as_bugs := 0, classified_as_not_bugs := 0,
      pending_classification := 0, bug_classification_rate := 0,
      testcases_with_bugs := [], testcases_without_bugs := [] }
  let classified := acc.classified_as_bugs + acc.classified_as_not_bugs
  if 0 < acc.total_failures then
    pure { acc with bug_classification_rate :=
      ((classified : ℚ) / (acc.total_failures : ℚ)) * 100 }
  else
    pure acc

/-! ## Retention sweeper (`cleanup_old_failures`) -/

/-- A file of the `testcases/` directory as the sweeper sees it. -/
structure FsFile where
  name : String
  mtime : Nat
deriving DecidableEq

/-- A file somewhere under `analysis/`: `inSubdir` is true when the file
lives inside a project subdirectory, where the non-recursive
`analysis_path.glob("*.json")` cannot see it. -/
structure AnalysisFsFile where
  name : String
  inSubdir : Bool
  mtime : Nat
deriving DecidableEq

/-- A test-case file is deleted when it matches `*.json` and its
modification time is strictly before the cutoff. -/
def tcSwept (cutoff : Int) (f : FsFile) : Bool :=
  strEndsWith f.name ".json" && decide ((f.mtime : Int) < cutoff)

/-- An analysis file is deleted when the top-level glob sees it (not in a
subdirectory), it matches `*.json`, and it is older than the cutoff. -/
def anSwept (cutoff : Int) (f : AnalysisFsFile) : Bool :=
  !f.inSubdir && strEndsWith f.name ".json" && decide ((f.mtime : Int) < cutoff)

/-- Embeds `cleanup_old_failures`, mirroring the two unlink loops: surviving
test-case files, surviving analysis files, and the returned count (test-case
removals only). -/
def cleanup_old_failures (now : Nat) (days_old : Nat)
    (testcases : List FsFile) (analysis : List AnalysisFsFile) :
    List FsFile × List AnalysisFsFile × Nat :=
  let cutoff : Int := (now : Int) - (days_old : Int) * 24 * 60 * 60
  let (tcKept, cleaned) := testcases.foldl
    (fun (acc : List FsFile × Nat) f =>
      if tcSwept cutoff f then (acc.1, acc.2 + 1) else (acc.1 ++ [f], acc.2))
    ([], 0)
  let anKept := analysis.foldl
    (fun (acc : List AnalysisFsFile) f =>
      if anSwept cutoff f then acc else acc ++ [f]) []
  (tcKept, anKept, cleaned)

/-! ## Concrete fixtures used by witnesses and counterexamples -/

/-- A stored occurrence with a given timestamp and bug flag. -/
def occWithBug (t : Nat) (b : Option Bool) : Occurrence :=
  { timestamp := t, error := "E", stackTrace := "S", isBug := b,
    bug_status_updated := none, tester_notes := [] }

/-- A stored record with a given id, first-seen time and occurrence list. -/
def recWithOccs (id : String) (fs : Nat) (occs : List Occurrence) : FailureRecord :=
  { failure_id := id, timestamp := fs, status := "failed", filePath := "login.spec.js",
    failedStep := "click", first_seen := fs, last_seen := none,
    occurrence_count := occs.length, recent_occurrences := occs }

/-- A readable stored document used by the corrupt-scan fixture. -/
def goodDoc : TestCaseDocument :=
  { testCase := "Good", created := 0, total_failures := 1, unique_errors := 1,
    failure_history := [recWithOccs "Good:E" 1 [occWithBug 1 none]],
    last_updated := some 1 }

/-- A directory holding one malformed file and one readable file. -/
def corruptScanStore : Store :=
  [("bad.json", .corrupt), ("Good.json", .valid goodDoc)]

/-- Document with three records whose newest occurrences carry
`isBug = true / false / null`; every older occurrence carries a conflicting
flag, so any scan consulting historical occurrences would count
differently. -/
def bugDoc : TestCaseDocument :=
  { testCase := "BT", created := 0, total_failures := 3, unique_errors := 3,
    failure_history :=
      [recWithOccs "r1" 1 [occWithBug 1 (some false), occWithBug 2 (some true)],
       recWithOccs "r2" 1 [occWithBug 1 (some true), occWithBug 2 (some false)],
       recWithOccs "r3" 1 [occWithBug 1 (some true), occWithBug 2 none]],
    last_updated := some 2 }

/-- Document with an empty failure history (zero scanned failures). -/
def emptyHistDoc : TestCaseDocument :=
  { testCase := "ET", created := 0, total_failures := 0, unique_errors := 0,
    failure_history := [], last_updated := none }

/-- Store holding only `emptyHistDoc` under its sanitised file name. -/
def emptyHistStore : Store := [("ET.json", .valid emptyHistDoc)]

/-- First record of the two-record fixture document (older activity). -/
def recA : FailureRecord := recWithOccs "T1:EA" 1 [occWithBug 1 none]

/-- Second record of the two-record fixture document (newer activity). -/
def recB : FailureRecord := recWithOccs "T1:EB" 2 [occWithBug 2 none]

/-- A stored document whose history is *not* in most-recent-first order and
whose `last_updated` is stale. -/
def docAB : TestCaseDocument :=
  { testCase := "T1", created := 0, total_failures := 2, unique_errors := 2,
    failure_history := [recA, recB], last_updated := some 5 }

/-- Store holding `docAB` under the sanitised name of `"T1"`. -/
def stAB : Store := [("T1.json", .valid docAB)]

/-- `recA` after `update_failure_bug_status 1000 ... True "" 0`: the newest
occurrence gets `isBug = True` and a `bug_status_updated` stamp. -/
def recAUpdated : FailureRecord :=
  { recA with recent_occurrences :=
      [{ (occWithBug 1 none) with isBug := some true, bug_status_updated := some 1000 }] }

/-- `docAB` as rewritten by that update: same stale `last_updated`, same
(unsorted) record order. -/
def docABUpdated : TestCaseDocument :=
  { docAB with failure_history := [recAUpdated, recB] }

/-- A record whose `recent_occurrences` list is empty. -/
def recEmptyOccs : FailureRecord := recWithOccs "TE:E" 3 []

/-- Document owning `recEmptyOccs`. -/
def docEmptyOccs : TestCaseDocument :=
  { testCase := "TE", created := 0, total_failures := 1, unique_errors := 1,
    failure_history := [recEmptyOccs], last_updated := some 3 }

/-- Store holding `docEmptyOccs` under the sanitised name of `"TE"`. -/
def stEmptyOccs : Store := [("TE.json", .valid docEmptyOccs)]

/-- The observation used by concrete save scenarios. -/
def fdSample : FailureData :=
  { testCase := "T1", error := "E1", stackTrace := "S1", status := "failed",
    filePath := "login.spec.js", failedStep := "click" }

/-- A record already holding the maximum of 10 occurrences and matching
`fdSample`'s failure identity. -/
def fullRec : FailureRecord :=
  recWithOccs "T1:E1" 1 ((List.range 10).map (fun i => occWithBug i none))

/-- Document owning `fullRec`. -/
def fullDoc : TestCaseDocument :=
  { testCase := "T1", created := 0, total_failures := 10, unique_errors := 1,
    failure_history := [fullRec], last_updated := some 10 }

/-- An observation matching `recA`'s identity (`testCase = "T1"`,
`error = "EA"`) but carrying different status, file path and failed step. -/
def fdClash : FailureData :=
  { testCase := "T1", error := "EA", stackTrace := "SX", status := "broken",
    filePath := "checkout.spec.js", failedStep := "submit" }

/-! ## Helper lemmas -/

theorem insertDesc_perm (key : α → Nat) (x : α) (l : List α) :
    (insertDesc key x l).Perm (x :: l) := by
  induction l with
  | nil => exact List.Perm.refl _
  | cons y ys ih =>
    simp only [insertDesc]
    split
    · exact (ih.cons y).trans (List.Perm.swap x y ys)
    · exact List.Perm.refl _

theorem sortByKeyDesc_perm (key : α → Nat) (l : List α) :
    (sortByKeyDesc key l).Perm l := by
  induction l with
  | nil => exact List.Perm.refl _
  | cons x xs ih => exact (insertDesc_perm key x _).trans (ih.cons x)

theorem sortByKeyDesc_length (key : α → Nat) (l : List α) :
    (sortByKeyDesc key l).length = l.length :=
  (sortByKeyDesc_perm key l).length_eq

theorem mem_sortByKeyDesc (key : α → Nat) (l : List α) (a : α) :
    a ∈ sortByKeyDesc key l ↔ a ∈ l :=
  (sortByKeyDesc_perm key l).mem_iff

theorem insertDesc_sorted (key : α → Nat) (x : α) (l : List α)
    (h : l.Pairwise (fun a b => key b ≤ key a)) :
    (insertDesc key x l).Pairwise (fun a b => key b ≤ key a) := by
  induction l with
  | nil => simp [insertDesc]
  | cons y ys ih =>
    rcases List.pairwise_cons.mp h with ⟨hy, hys⟩
    simp only [insertDesc]
    split
    · refine List.pairwise_cons.mpr ⟨?_, ih hys⟩
      intro z hz
      rcases List.mem_cons.mp ((insertDesc_perm key x ys).mem_iff.mp hz) with hz | hz
      · subst hz; omega
      · exact hy z hz
    · refine List.pairwise_cons.mpr ⟨?_, h⟩
      intro z hz
      rcases List.mem_cons.mp hz with hz | hz
      · subst hz; omega
      · exact le_trans (hy z hz) (by omega)

theorem sortByKeyDesc_sorted (key : α → Nat) (l : List α) :
    (sortByKeyDesc key l).Pairwise (fun a b => key b ≤ key a) := by
  induction l with
  | nil => simp [sortByKeyDesc]
  | cons x xs ih => exact insertDesc_sorted key x _ ih

theorem updateFirst_length (p : α → Bool) (f : α → α) (l : List α) :
    (updateFirst p f l).length = l.length := by
  induction l with
  | nil => rfl
  | cons x xs ih =>
    simp only [updateFirst]
    split <;> simp [ih]

theorem mem_updateFirst (p : α → Bool) (f : α → α) (l : List α) (x : α)
    (hx : x ∈ updateFirst p f l) : x ∈ l ∨ ∃ y ∈ l, x = f y := by
  induction l with
  | nil => simp [updateFirst] at hx
  | cons z zs ih =>
    simp only [updateFirst] at hx
    split at hx
    · rcases List.mem_cons.mp hx with h | h
      · exact Or.inr ⟨z, List.mem_cons_self z zs, h⟩
      · exact Or.inl (List.mem_cons_of_mem z h)
    · rcases List.mem_cons.mp hx with h | h
      · exact Or.inl (h ▸ List.mem_cons_self z zs)
      · rcases ih h with h | ⟨y, hy, hxy⟩
        · exact Or.inl (List.mem_cons_of_mem z h)
        · exact Or.inr ⟨y, List.mem_cons_of_mem z hy, hxy⟩

theorem filter_updateFirst_pos (p : α → Bool) (f : α → α) (l : List α) (a : α)
    (h : l.filter p = [a]) (hfa : p (f a) = true) :
    (updateFirst p f l).filter p = [f a] := by
  induction l with
  | nil => simp at h
  | cons x xs ih =>
    by_cases hx : p x = true
    · rw [List.filter_cons_of_pos hx] at h
      injection h with h1 h2
      subst h1
      simp [updateFirst, hx, List.filter_cons_of_pos hfa, h2]
    · have hx' : p x = false := Bool.eq_false_iff.mpr hx
      rw [List.filter_cons_of_neg (by simp [hx'])] at h
      simp only [updateFirst, hx', Bool.false_eq_true, if_false]
      rw [List.filter_cons_of_neg (by simp [hx'])]
      exact ih h

theorem filter_updateFirst_neg (p : α → Bool) (f : α → α) (l : List α)
    (hf : ∀ y, p y = true → p (f y) = true) :
    (updateFirst p f l).filter (fun x => !(p x)) = l.filter (fun x => !(p x)) := by
  induction l with
  | nil => rfl
  | cons x xs ih =>
    by_cases hx : p x = true
    · simp [updateFirst, hx, List.filter_cons, hf x hx]
    · have hx' : p x = false := Bool.eq_false_iff.mpr hx
      simp [updateFirst, hx', List.filter_cons, ih]

theorem any_of_filter_singleton (p : α → Bool) (l : List α) (a : α)
    (h : l.filter p = [a]) : l.any p = true := by
  have ha : a ∈ l.filter p := by simp [h]
  rcases List.mem_filter.mp ha with ⟨hmem, hpa⟩
  exact List.any_eq_true.mpr ⟨a, hmem, hpa⟩

theorem pyTakeLast_length_le (n : Nat) (l : List α) : (pyTakeLast n l).length ≤ n := by
  simp only [pyTakeLast, List.length_drop]
  omega

theorem set_getElem_self (l : List α) (j : Nat) (a : α) (h : l[j]? = some a) :
    l.set j a = l := by
  induction l generalizing j with
  | nil => simp at h
  | cons x xs ih =>
    cases j with
    | zero => simp at h; simp [h]
    | succ k => simp at h; simp [List.set_cons_succ, ih k h]

theorem pySet_pyGet_self (l : List α) (i : Int) (a : α) (h : pyGet l i = some a) :
    pySet l i a = l := by
  simp only [pyGet, Option.bind_eq_some] at h
  rcases h with ⟨j, hj, hja⟩
  simp [pySet, hj, set_getElem_self l j a hja]

theorem pyGet_guard (l : List α) (i : Int) (a : α) (h : pyGet l i = some a) :
    l.isEmpty = false ∧ ¬((l.length : Int) ≤ i) := by
  simp only [pyGet, Option.bind_eq_some] at h
  rcases h with ⟨j, hj, hja⟩
  have hjl : j < l.length := by
    by_contra hge
    simp [List.getElem?_eq_none (Nat.le_of_not_lt hge)] at hja
  constructor
  · cases l with
    | nil => simp at hjl
    | cons _ _ => rfl
  · simp only [pyIndex] at hj
    split at hj
    · omega
    · split at hj
      · omega
      · simp at hj

theorem lookupFile_writeFile (s : Store) (name : String) (c : FileContent) :
    lookupFile (writeFile s name c) name = some c := by
  induction s with
  | nil => simp [writeFile, lookupFile]
  | cons p ps ih =>
    by_cases hp : p.1 == name
    · simp [writeFile, hp, lookupFile, List.find?]
    · have hp' : (p.1 == name) = false := Bool.eq_false_iff.mpr hp
      simp only [writeFile, hp', Bool.false_eq_true, if_false]
      simp only [lookupFile, List.find?, hp']
      exact ih

theorem applyBugUpdate_empty (now : Nat) (b : Bool) (notes : String) (r : FailureRecord)
    (h : r.recent_occurrences = []) : applyBugUpdate now b notes r = r := by
  cases r with
  | mk fid ts st fp fs first last cnt occs =>
    simp only [FailureRecord.recent_occurrences] at h
    subst h
    simp [applyBugUpdate]

theorem update_success_eq (now : Nat) (s : Store) (name : String) (b : Bool)
    (notes : String) (idx : Int) (f : String) (d : TestCaseDocument) (r : FailureRecord)
    (hres : resolveTestcaseFile s name = some f)
    (hload : lookupFile s f = some (.valid d))
    (hget : pyGet d.failure_history idx = some r) :
    update_failure_bug_status now s name b notes idx =
      .ok (true, writeFile s f
        (.valid { d with
          failure_history := pySet d.failure_history idx (applyBugUpdate now b notes r) })) := by
  have hg := pyGet_guard _ _ _ hget
  simp [update_failure_bug_status, hres, hload, hg.1, hg.2, hget]

theorem foldl_sweep_count (p : α → Bool) (l : List α) (acc : List α) (n : Nat) :
    l.foldl (fun (a : List α × Nat) f => if p f then (a.1, a.2 + 1) else (a.1 ++ [f], a.2)) (acc, n)
      = (acc ++ l.filter (fun f => !p f), n + l.countP p) := by
  induction l generalizing acc n with
  | nil => simp
  | cons x xs ih =>
    by_cases hx : p x = true
    · simp [hx, ih, List.countP_cons]
      omega
    · have hx' : p x = false := Bool.eq_false_iff.mpr hx
      simp [hx', ih, List.countP_cons]

theorem foldl_sweep_keep (p : α → Bool) (l acc : List α) :
    l.foldl (fun a f => if p f then a else a ++ [f]) acc = acc ++ l.filter (fun f => !p f) := by
  induction l generalizing acc with
  | nil => simp
  | cons x xs ih =>
    by_cases hx : p x = true
    · simp [hx, ih]
    · have hx' : p x = false := Bool.eq_false_iff.mpr hx
      simp [hx', ih]

/-! ## Claim theorems -/

/-- Claim C3 (code bug evaluation): on a directory holding one malformed
test-case file next to a readable one, each of the three bulk scans
(`find_similar_failures`, `get_failure_stats`, `get_bug_statistics`) lets the
`JSONDecodeError` escape instead of skipping the bad file and aggregating the
readable one — their read loops have no `try/except`, unlike the other scans
of the same class. -/
theorem c3_bulk_scans_raise_on_corrupt_file :
    find_similar_failures "Good" "E" corruptScanStore = .error .jsonDecodeError ∧
    get_failure_stats corruptScanStore = .error .jsonDecodeError ∧
    get_bug_statistics corruptScanStore = .error .jsonDecodeError := by
  refine ⟨rfl, rfl, rfl⟩

/-- Claim C6: `get_bug_statistics` classifies each record solely by the
`isBug` flag of its most recent occurrence (the fixture's older occurrences
all carry conflicting flags), reporting `classified_as_bugs = 1`,
`classified_as_not_bugs = 1`, `pending_classification = 1` and a rate of
`2/3 * 100` for the three-record document; and with zero scanned failures
the rate stays `0` instead of dividing by zero. -/
theorem c6_bug_statistics_classification :
    get_bug_statistics [("BT.json", .valid bugDoc)] =
      .ok { total_failures := 3, classified_as_bugs := 1, classified_as_not_bugs := 1,
            pending_classification := 1, bug_classification_rate := 2 / 3 * 100,
            testcases_with_bugs := [{ testCase := "BT", bugs := 1, non_bugs := 1, pending := 1 }],
            testcases_without_bugs := [] } ∧
    get_bug_statistics emptyHistStore =
      .ok { total_failures := 0, classified_as_bugs := 0, classified_as_not_bugs := 0,
            pending_classification := 0, bug_classification_rate := 0,
            testcases_with_bugs := [], testcases_without_bugs := [] } := by
  constructor
  · have h1 : get_bug_statistics [("BT.json", .valid bugDoc)] =
        .ok { total_failures := 3, classified_as_bugs := 1, classified_as_not_bugs := 1,
              pending_classification := 1,
              bug_classification_rate := (((1 + 1 : Nat) : ℚ) / ((3 : Nat) : ℚ)) * 100,
              testcases_with_bugs := [{ testCase := "BT", bugs := 1, non_bugs := 1, pending := 1 }],
              testcases_without_bugs := [] } := rfl
    rw [h1]
    norm_num
  · rfl

/-- Claim C7, counterexample to the original statement: with a stored
document of two records, `failureIndex = -3` passes the
`failure_index >= len(failure_history)` guard (Python `int` comparison) and
then raises an uncaught `IndexError` at `failure_history[-3]` — the call
neither returns `false` nor avoids the exception. -/
theorem c7_counterexample :
    update_failure_bug_status 1000 stAB "T1" true "" (-3) = .error .indexError := by
  rfl

/-- Claim C7 as amended: for every store, name, flag, notes and
`failureIndex`, `update_failure_bug_status` returns `false` without raising
and leaves the store unmodified when no document matches (neither by
sanitised filename nor by exact `testCase` field), and likewise when the
matched readable document has an empty `failure_history` or
`failureIndex >= len(failure_history)` (negative indices instead follow
Python signed indexing). -/
theorem c7_not_found_returns_false (now : Nat) (s : Store) (name : String)
    (b : Bool) (notes : String) (idx : Int) :
    (resolveTestcaseFile s name = none →
      update_failure_bug_status now s name b notes idx = .ok (false, s)) ∧
    (∀ f d, resolveTestcaseFile s name = some f →
      lookupFile s f = some (.valid d) →
      (d.failure_history = [] ∨ (d.failure_history.length : Int) ≤ idx) →
      update_failure_bug_status now s name b notes idx = .ok (false, s)) := by
  constructor
  · intro h
    simp [update_failure_bug_status, h]
  · intro f d hres hload hcase
    have hcond : (d.failure_history.isEmpty || decide ((d.failure_history.length : Int) ≤ idx)) = true := by
      rcases hcase with h | h
      · simp [h]
      · simp [h]
    simp [update_failure_bug_status, hres, hload, hcond]

/-- Witness for `c7_not_found_returns_false`: both the no-match case and the
empty-history case at concrete inputs. -/
theorem c7_witness :
    resolveTestcaseFile [] "X" = none ∧
    update_failure_bug_status 0 [] "X" true "" 0 = .ok (false, []) ∧
    resolveTestcaseFile emptyHistStore "ET" = some "ET.json" ∧
    lookupFile emptyHistStore "ET.json" = some (.valid emptyHistDoc) ∧
    update_failure_bug_status 0 emptyHistStore "ET" true "" 0 = .ok (false, emptyHistStore) :=
  ⟨rfl, (c7_not_found_returns_false 0 [] "X" true "" 0).1 rfl, rfl, rfl,
    (c7_not_found_returns_false 0 emptyHistStore "ET" true "" 0).2 "ET.json" emptyHistDoc
      rfl rfl (Or.inl rfl)⟩

/-- Claim C10: when the record selected by `failureIndex` has an empty
`recent_occurrences` list, `update_failure_bug_status` still returns `true`,
sets no `isBug` flag, appends no tester note, and rewrites the document with
its content unchanged. -/
theorem c10_empty_occurrences_update (now : Nat) (s : Store) (name : String)
    (b : Bool) (notes : String) (idx : Int) (f : String) (d : TestCaseDocument)
    (r : FailureRecord)
    (hres : resolveTestcaseFile s name = some f)
    (hload : lookupFile s f = some (.valid d))
    (hget : pyGet d.failure_history idx = some r)
    (hocc : r.recent_occurrences = []) :
    update_failure_bug_status now s name b notes idx =
      .ok (true, writeFile s f (.valid d)) := by
  rw [update_success_eq now s name b notes idx f d r hres hload hget,
    applyBugUpdate_empty now b notes r hocc, pySet_pyGet_self _ _ _ hget]

/-- Witness for `c10_empty_occurrences_update` on the concrete store whose
only record has no occurrences. -/
theorem c10_witness :
    resolveTestcaseFile stEmptyOccs "TE" = some "TE.json" ∧
    lookupFile stEmptyOccs "TE.json" = some (.valid docEmptyOccs) ∧
    pyGet docEmptyOccs.failure_history 0 = some recEmptyOccs ∧
    recEmptyOccs.recent_occurrences = [] ∧
    update_failure_bug_status 7 stEmptyOccs "TE" true "a note" 0 =
      .ok (true, writeFile stEmptyOccs "TE.json" (.valid docEmptyOccs)) :=
  ⟨rfl, rfl, rfl, rfl,
    c10_empty_occurrences_update 7 stEmptyOccs "TE" true "a note" 0 "TE.json"
      docEmptyOccs recEmptyOccs rfl rfl rfl rfl⟩

/-- Claim C2, counterexample to the original statement: a successful
`update_failure_bug_status` persists the document *without* refreshing
`last_updated` (it stays at the stale `5`, not the current `1000`) and
*without* re-sorting `failure_history` (the stale-first order `[recA, recB]`
with sort keys `1 < 2` is written back as-is). -/
theorem c2_counterexample :
    update_failure_bug_status 1000 stAB "T1" true "" 0 =
      .ok (true, [("T1.json", .valid docABUpdated)]) ∧
    docABUpdated.last_updated = some 5 ∧
    docABUpdated.last_updated ≠ some 1000 ∧
    docABUpdated.failure_history = [recAUpdated, recB] ∧
    recordSortKey recAUpdated < recordSortKey recB ∧
    ¬ docABUpdated.failure_history.Pairwise
        (fun a b => recordSortKey b ≤ recordSortKey a) := by
  refine ⟨rfl, rfl, by decide, rfl, by decide, by decide⟩

/-- Claim C2 as amended: `save_failure` refreshes `last_updated` and
re-sorts `failure_history` most-recent-first before writing, but
`update_failure_bug_status` persists the document with `last_updated`
untouched and the record order unchanged (only the addressed record is
replaced in place). -/
theorem c2_persist_effects :
    (∀ (now : Nat) (fd : FailureData) (L : Option TestCaseDocument),
      (save_failure_doc now fd L).1.last_updated = some now ∧
      (save_failure_doc now fd L).1.failure_history.Pairwise
        (fun a b => recordSortKey b ≤ recordSortKey a)) ∧
    (∀ (now : Nat) (s : Store) (name : String) (b : Bool) (notes : String)
      (idx : Int) (f : String) (d : TestCaseDocument) (r : FailureRecord),
      resolveTestcaseFile s name = some f →
      lookupFile s f = some (.valid d) →
      pyGet d.failure_history idx = some r →
      ∃ d', update_failure_bug_status now s name b notes idx =
          .ok (true, writeFile s f (.valid d')) ∧
        d'.last_updated = d.last_updated ∧
        d'.failure_history =
          pySet d.failure_history idx (applyBugUpdate now b notes r)) := by
  constructor
  · intro now fd L
    constructor
    · simp [save_failure_doc]
    · simp only [save_failure_doc]
      exact sortByKeyDesc_sorted _ _
  · intro now s name b notes idx f d r hres hload hget
    exact ⟨_, update_success_eq now s name b notes idx f d r hres hload hget, rfl, rfl⟩

/-- Witness for `c2_persist_effects`: the sorting/refresh half at a concrete
save, and the no-refresh half at a concrete update. -/
theorem c2_witness :
    ((save_failure_doc 9 fdSample (some docAB)).1.last_updated = some 9 ∧
      (save_failure_doc 9 fdSample (some docAB)).1.failure_history.Pairwise
        (fun a b => recordSortKey b ≤ recordSortKey a)) ∧
    resolveTestcaseFile stAB "T1" = some "T1.json" ∧
    lookupFile stAB "T1.json" = some (.valid docAB) ∧
    pyGet docAB.failure_history 0 = some recA ∧
    (∃ d', update_failure_bug_status 1000 stAB "T1" true "" 0 =
        .ok (true, writeFile stAB "T1.json" (.valid d')) ∧
      d'.last_updated = docAB.last_updated ∧
      d'.failure_history = pySet docAB.failure_history 0 (applyBugUpdate 1000 true "" recA)) :=
  ⟨c2_persist_effects.1 9 fdSample (some docAB), rfl, rfl, rfl,
    c2_persist_effects.2 1000 stAB "T1" true "" 0 "T1.json" docAB recA rfl rfl rfl⟩

/-- Claim C8, counterexample to the original statement: an analysis record
inside a project subdirectory that is 40 days old survives
`cleanup_old_failures(30)` — the analysis sweep uses the non-recursive
`analysis_path.glob("*.json")`, so it does not recurse into analysis
subdirectories. -/
theorem c8_counterexample :
    cleanup_old_failures (40 * 86400) 30 []
        [{ name := "proj_sub.json", inSubdir := true, mtime := 0 }] =
      ([], [{ name := "proj_sub.json", inSubdir := true, mtime := 0 }], 0) := by
  rfl

/-- Claim C8 as amended: `cleanup_old_failures(daysOld)` deletes exactly the
test-case `*.json` files with modification time strictly older than
`now - daysOld*86400` (a 31-day-old file goes, a 29-day-old file stays),
deletes the analysis `*.json` files *directly* in the analysis directory
that are older than the same cutoff while every file inside an analysis
subdirectory is preserved, and returns only the count of removed test-case
records. -/
theorem c8_cleanup_retention (now days_old : Nat)
    (tcs : List FsFile) (ans : List AnalysisFsFile) :
    cleanup_old_failures now days_old tcs ans =
      (tcs.filter (fun f => !tcSwept ((now : Int) - (days_old : Int) * 24 * 60 * 60) f),
       ans.filter (fun f => !anSwept ((now : Int) - (days_old : Int) * 24 * 60 * 60) f),
       tcs.countP (tcSwept ((now : Int) - (days_old : Int) * 24 * 60 * 60))) ∧
    (ans.filter (fun f => !anSwept ((now : Int) - (days_old : Int) * 24 * 60 * 60) f)).filter
        (fun f => f.inSubdir)
      = ans.filter (fun f => f.inSubdir) ∧
    cleanup_old_failures (31 * 86400) 30 [{ name := "t.json", mtime := 0 }] [] =
      ([], [], 1) ∧
    cleanup_old_failures (29 * 86400) 30 [{ name := "t.json", mtime := 0 }] [] =
      ([{ name := "t.json", mtime := 0 }], [], 0) := by
  refine ⟨?_, ?_, rfl, rfl⟩
  · simp only [cleanup_old_failures, foldl_sweep_count, foldl_sweep_keep]
    simp
  · rw [List.filter_filter]
    apply List.filter_congr
    intro f _
    by_cases hf : f.inSubdir = true
    · simp [hf, anSwept]
    · have hf' : f.inSubdir = false := Bool.eq_false_iff.mpr hf
      simp [hf']

theorem newFailureRecord_failure_id (now : Nat) (fd : FailureData) (fid : String) :
    (newFailureRecord now fd fid).failure_id = fid := rfl

theorem sortByKeyDesc_singleton (key : α → Nat) (x : α) :
    sortByKeyDesc key [x] = [x] := rfl

/-- Unfolding of `save_failure_doc` on a loaded document that already holds
a record with the computed failure id. -/
theorem save_failure_doc_found_eq (now : Nat) (fd : FailureData) (d : TestCaseDocument)
    (hfound : d.failure_history.any
      (fun r => r.failure_id == generate_failure_id fd.testCase fd.error) = true) :
    save_failure_doc now fd (some d)
      = ({ d with
            failure_history := sortByKeyDesc recordSortKey
              (updateFirst (fun r => r.failure_id == generate_failure_id fd.testCase fd.error)
                (mergeIntoRecord now fd) d.failure_history),
            total_failures := d.total_failures + 1,
            last_updated := some now },
         generate_failure_id fd.testCase fd.error) := by
  simp only [save_failure_doc, Option.getD_some, hfound, if_true]

theorem mergeIntoRecord_fields (now : Nat) (fd : FailureData) (r : FailureRecord) :
    (mergeIntoRecord now fd r).failure_id = r.failure_id ∧
    (mergeIntoRecord now fd r).first_seen = r.first_seen ∧
    (mergeIntoRecord now fd r).status = r.status ∧
    (mergeIntoRecord now fd r).filePath = r.filePath ∧
    (mergeIntoRecord now fd r).failedStep = r.failedStep ∧
    (mergeIntoRecord now fd r).timestamp = r.timestamp := by
  simp only [mergeIntoRecord]
  split <;> exact ⟨rfl, rfl, rfl, rfl, rfl, rfl⟩

theorem mergeIntoRecord_occ_le (now : Nat) (fd : FailureData) (r : FailureRecord)
    (h : r.recent_occurrences.length ≤ 10) :
    (mergeIntoRecord now fd r).recent_occurrences.length ≤ 10 := by
  simp only [mergeIntoRecord]
  split
  · exact pyTakeLast_length_le 10 _
  · simpa using h

/-- Claim C4: after every `save_failure`, the written document satisfies
`unique_errors == len(failure_history)` (given the loaded document satisfied
it); `unique_errors` grows by one exactly when a record with a previously
unseen `failure_id` is appended; and a freshly created document (also the
one replacing a corrupt read) starts at `unique_errors = 0` with an empty
history. -/
theorem c4_unique_errors_invariant (now : Nat) (fd : FailureData)
    (L : Option TestCaseDocument)
    (hinv : (L.getD (freshDoc now fd.testCase)).unique_errors
      = (L.getD (freshDoc now fd.testCase)).failure_history.length) :
    (save_failure_doc now fd L).1.unique_errors
      = (save_failure_doc now fd L).1.failure_history.length ∧
    (freshDoc now fd.testCase).unique_errors = 0 ∧
    (freshDoc now fd.testCase).failure_history = [] ∧
    (save_failure_doc now fd L).1.unique_errors
      = (L.getD (freshDoc now fd.testCase)).unique_errors +
        (if (L.getD (freshDoc now fd.testCase)).failure_history.any
            (fun r => r.failure_id == generate_failure_id fd.testCase fd.error)
          then 0 else 1) := by
  refine ⟨?_, rfl, rfl, ?_⟩
  · simp only [save_failure_doc, sortByKeyDesc_length]
    split
    · rw [updateFirst_length]
      exact hinv
    · simp [hinv]
  · simp only [save_failure_doc]
    split
    · next h => simp [h]
    · next h => simp [Bool.eq_false_iff.mpr h]

/-- Witness for `c4_unique_errors_invariant` on a save into an empty load
result. -/
theorem c4_witness :
    ((none : Option TestCaseDocument).getD (freshDoc 5 fdSample.testCase)).unique_errors
      = ((none : Option TestCaseDocument).getD (freshDoc 5 fdSample.testCase)).failure_history.length ∧
    (save_failure_doc 5 fdSample none).1.unique_errors
      = (save_failure_doc 5 fdSample none).1.failure_history.length :=
  ⟨rfl, (c4_unique_errors_invariant 5 fdSample none rfl).1⟩

/-- Claim C5: after every `save_failure`, every record's
`recent_occurrences` has length at most 10 (given the loaded document
satisfied the cap), and merging a genuinely new occurrence into a record
already holding 10 drops exactly the oldest entry and keeps the 10 most
recent in insertion order. -/
theorem c5_recent_occurrences_cap (now : Nat) (fd : FailureData)
    (L : Option TestCaseDocument)
    (hbound : ∀ r ∈ (L.getD (freshDoc now fd.testCase)).failure_history,
      r.recent_occurrences.length ≤ 10) :
    (∀ r ∈ (save_failure_doc now fd L).1.failure_history,
      r.recent_occurrences.length ≤ 10) ∧
    (∀ r : FailureRecord, r.recent_occurrences.length = 10 →
      isNewOccurrence now fd r.recent_occurrences = true →
      (mergeIntoRecord now fd r).recent_occurrences
        = r.recent_occurrences.drop 1 ++ [mkOccurrence now fd.error fd.stackTrace]) := by
  constructor
  · simp only [save_failure_doc]
    intro r hr
    rw [mem_sortByKeyDesc] at hr
    split at hr
    · rcases mem_updateFirst _ _ _ _ hr with h | ⟨y, hy, rfl⟩
      · exact hbound r h
      · exact mergeIntoRecord_occ_le now fd y (hbound y hy)
    · rcases List.mem_append.mp hr with h | h
      · exact hbound r h
      · simp only [List.mem_singleton] at h
        subst h
        simp [newFailureRecord]
  · intro r h10 hnew
    simp only [mergeIntoRecord, hnew, if_true, pyTakeLast, List.length_append, h10,
      List.length_singleton]
    have h1 : (10 + 1) - 10 = 1 := rfl
    rw [h1, List.drop_append_of_le_length (by omega)]

/-- Witness for `c5_recent_occurrences_cap`: the cap after a save into a
document already holding a full record, and the drop-oldest equation on that
record. -/
theorem c5_witness :
    (∀ r ∈ ((some fullDoc : Option TestCaseDocument).getD
        (freshDoc 9000 fdSample.testCase)).failure_history,
      r.recent_occurrences.length ≤ 10) ∧
    (∀ r ∈ (save_failure_doc 9000 fdSample (some fullDoc)).1.failure_history,
      r.recent_occurrences.length ≤ 10) ∧
    fullRec.recent_occurrences.length = 10 ∧
    isNewOccurrence 9000 fdSample fullRec.recent_occurrences = true ∧
    (mergeIntoRecord 9000 fdSample fullRec).recent_occurrences
      = fullRec.recent_occurrences.drop 1
        ++ [mkOccurrence 9000 fdSample.error fdSample.stackTrace] :=
  ⟨by decide, (c5_recent_occurrences_cap 9000 fdSample (some fullDoc) (by decide)).1,
    by decide, by decide,
    (c5_recent_occurrences_cap 9000 fdSample (some fullDoc) (by decide)).2
      fullRec (by decide) (by decide)⟩

/-- Claim C9: when `save_failure` merges into the existing record matching
the computed `failure_id`, that record keeps its `failure_id`, `first_seen`,
`status`, `filePath` and `failedStep` (whatever the incoming observation
carries), and every other record of the document is unchanged apart from its
position after the re-sort. -/
theorem c9_merge_frame (now : Nat) (fd : FailureData) (d : TestCaseDocument)
    (r : FailureRecord)
    (hmatch : d.failure_history.filter
      (fun x => x.failure_id == generate_failure_id fd.testCase fd.error) = [r]) :
    ∃ r', (save_failure_doc now fd (some d)).1.failure_history.filter
        (fun x => x.failure_id == generate_failure_id fd.testCase fd.error) = [r'] ∧
      r'.failure_id = r.failure_id ∧ r'.first_seen = r.first_seen ∧
      r'.status = r.status ∧ r'.filePath = r.filePath ∧ r'.failedStep = r.failedStep ∧
      ((save_failure_doc now fd (some d)).1.failure_history.filter
        (fun x => !(x.failure_id == generate_failure_id fd.testCase fd.error))).Perm
      (d.failure_history.filter
        (fun x => !(x.failure_id == generate_failure_id fd.testCase fd.error))) := by
  have hqr : (r.failure_id == generate_failure_id fd.testCase fd.error) = true := by
    have hmem : r ∈ d.failure_history.filter
        (fun x => x.failure_id == generate_failure_id fd.testCase fd.error) := by
      rw [hmatch]; simp
    exact (List.mem_filter.mp hmem).2
  have hqf : ∀ y : FailureRecord,
      (y.failure_id == generate_failure_id fd.testCase fd.error) = true →
      ((mergeIntoRecord now fd y).failure_id == generate_failure_id fd.testCase fd.error) = true := by
    intro y hy
    rw [(mergeIntoRecord_fields now fd y).1]
    exact hy
  have hfound : d.failure_history.any
      (fun x => x.failure_id == generate_failure_id fd.testCase fd.error) = true :=
    any_of_filter_singleton _ _ r hmatch
  have hhist : (save_failure_doc now fd (some d)).1.failure_history
      = sortByKeyDesc recordSortKey
          (updateFirst (fun x => x.failure_id == generate_failure_id fd.testCase fd.error)
            (mergeIntoRecord now fd) d.failure_history) := by
    rw [save_failure_doc_found_eq now fd d hfound]
  rw [hhist]
  refine ⟨mergeIntoRecord now fd r, ?_, (mergeIntoRecord_fields now fd r).1,
    (mergeIntoRecord_fields now fd r).2.1, (mergeIntoRecord_fields now fd r).2.2.1,
    (mergeIntoRecord_fields now fd r).2.2.2.1, (mergeIntoRecord_fields now fd r).2.2.2.2.1, ?_⟩
  · have hperm := (sortByKeyDesc_perm recordSortKey
      (updateFirst (fun x => x.failure_id == generate_failure_id fd.testCase fd.error)
        (mergeIntoRecord now fd) d.failure_history)).filter
      (fun x => x.failure_id == generate_failure_id fd.testCase fd.error)
    rw [filter_updateFirst_pos _ _ _ r hmatch (hqf r hqr)] at hperm
    exact List.perm_singleton.mp hperm
  · have hperm := (sortByKeyDesc_perm recordSortKey
      (updateFirst (fun x => x.failure_id == generate_failure_id fd.testCase fd.error)
        (mergeIntoRecord now fd) d.failure_history)).filter
      (fun x => !(x.failure_id == generate_failure_id fd.testCase fd.error))
    rwa [filter_updateFirst_neg _ _ _ hqf] at hperm

/-- Witness for `c9_merge_frame`: merging an observation that matches
`recA`'s identity but carries a different status, file path and failed
step. -/
theorem c9_witness :
    docAB.failure_history.filter
      (fun x => x.failure_id == generate_failure_id fdClash.testCase fdClash.error) = [recA] ∧
    (∃ r', (save_failure_doc 77 fdClash (some docAB)).1.failure_history.filter
        (fun x => x.failure_id == generate_failure_id fdClash.testCase fdClash.error) = [r'] ∧
      r'.failure_id = recA.failure_id ∧ r'.first_seen = recA.first_seen ∧
      r'.status = recA.status ∧ r'.filePath = recA.filePath ∧ r'.failedStep = recA.failedStep ∧
      ((save_failure_doc 77 fdClash (some docAB)).1.failure_history.filter
        (fun x => !(x.failure_id == generate_failure_id fdClash.testCase fdClash.error))).Perm
      (docAB.failure_history.filter
        (fun x => !(x.failure_id == generate_failure_id fdClash.testCase fdClash.error)))) :=
  ⟨by decide, c9_merge_frame 77 fdClash docAB recA (by decide)⟩

theorem dedup_merge (now1 now2 : Nat) (fd : FailureData) (fid : String)
    (hwin : (now2 : Int) - (now1 : Int) < 300) :
    mergeIntoRecord now2 fd (newFailureRecord now1 fd fid)
      = { (newFailureRecord now1 fd fid) with last_seen := some now2 } := by
  simp [mergeIntoRecord, isNewOccurrence, newFailureRecord, mkOccurrence,
    pyMaxByTimestamp, hwin]

/-- `save_failure` into an absent (or corrupt) document file: the written
document holds exactly the one fresh record. -/
theorem save_first_fresh (now : Nat) (fd : FailureData) :
    save_failure_doc now fd none
      = ({ testCase := fd.testCase, created := now, total_failures := 1,
           unique_errors := 1,
           failure_history := [newFailureRecord now fd
             (generate_failure_id fd.testCase fd.error)],
           last_updated := some now }, generate_failure_id fd.testCase fd.error) := rfl

/-- A second identical save within the dedup window only refreshes the
record's `last_seen` and bumps `total_failures`. -/
theorem save_second_dup (now1 now2 : Nat) (fd : FailureData)
    (hwin : (now2 : Int) - (now1 : Int) < 300) :
    save_failure_doc now2 fd (some (save_failure_doc now1 fd none).1)
      = ({ testCase := fd.testCase, created := now1, total_failures := 2,
           unique_errors := 1,
           failure_history := [{ (newFailureRecord now1 fd
               (generate_failure_id fd.testCase fd.error)) with
             last_seen := some now2 }],
           last_updated := some now2 }, generate_failure_id fd.testCase fd.error) := by
  rw [save_first_fresh]
  have hfound : (([newFailureRecord now1 fd (generate_failure_id fd.testCase fd.error)] :
      List FailureRecord).any
      (fun r => r.failure_id == generate_failure_id fd.testCase fd.error)) = true := by
    simp [newFailureRecord_failure_id]
  rw [save_failure_doc_found_eq now2 fd _ hfound]
  simp only [updateFirst, newFailureRecord_failure_id, beq_self_eq_true, if_true]
  rw [dedup_merge now1 now2 fd _ hwin]
  rw [sortByKeyDesc_singleton]
  rfl

/-- Claim C1: two `save_failure` calls with identical `testCase`, `error`
and `stackTrace`, the second landing less than 5 minutes after the first
created the record's newest occurrence, leave the matching record with
`occurrence_count = 1` and still exactly the one occurrence written by the
first call, refresh its `last_seen` to the second call's time, and leave the
document at `total_failures = 2` — `total_failures` growing by exactly one
on every call, duplicate or not (last conjunct). -/
theorem c1_duplicate_within_window (now1 now2 : Nat) (fd : FailureData) (s : Store)
    (habsent : loadTestcaseDoc s (generate_testcase_filename fd.testCase) = none)
    (h12 : now1 ≤ now2) (hwin : now2 < now1 + 300) :
    loadTestcaseDoc (save_failure now2 fd (save_failure now1 fd s).1).1
        (generate_testcase_filename fd.testCase)
      = some { testCase := fd.testCase, created := now1, total_failures := 2,
               unique_errors := 1,
               failure_history := [{ (newFailureRecord now1 fd
                   (generate_failure_id fd.testCase fd.error)) with
                 last_seen := some now2 }],
               last_updated := some now2 } ∧
    (save_failure now1 fd s).2 = generate_failure_id fd.testCase fd.error ∧
    (save_failure now2 fd (save_failure now1 fd s).1).2
      = generate_failure_id fd.testCase fd.error ∧
    (∀ (now : Nat) (L : Option TestCaseDocument),
      (save_failure_doc now fd L).1.total_failures
        = (L.getD (freshDoc now fd.testCase)).total_failures + 1) := by
  have hwin' : (now2 : Int) - (now1 : Int) < 300 := by omega
  have hs1 : save_failure now1 fd s
      = (writeFile s (generate_testcase_filename fd.testCase)
          (.valid (save_failure_doc now1 fd none).1),
         generate_failure_id fd.testCase fd.error) := by
    simp [save_failure, habsent, save_first_fresh]
  have hfst : (save_failure now1 fd s).1
      = writeFile s (generate_testcase_filename fd.testCase)
          (.valid (save_failure_doc now1 fd none).1) := by
    rw [hs1]
  have hloadW : loadTestcaseDoc
      (writeFile s (generate_testcase_filename fd.testCase)
        (.valid (save_failure_doc now1 fd none).1))
      (generate_testcase_filename fd.testCase) = some (save_failure_doc now1 fd none).1 := by
    simp [loadTestcaseDoc, lookupFile_writeFile]
  refine ⟨?_, by rw [hs1], ?_, ?_⟩
  · rw [hfst]
    simp only [save_failure, hloadW]
    rw [save_second_dup now1 now2 fd hwin']
    simp [loadTestcaseDoc, lookupFile_writeFile]
  · rw [hfst]
    simp only [save_failure, hloadW]
    rw [save_second_dup now1 now2 fd hwin']
  · intro now L
    simp [save_failure_doc]

/-- Witness for `c1_duplicate_within_window`: two saves of the same
observation at times 0 and 100 into an empty directory. -/
theorem c1_witness :
    loadTestcaseDoc [] (generate_testcase_filename fdSample.testCase) = none ∧
    (0 : Nat) ≤ 100 ∧ (100 : Nat) < 0 + 300 ∧
    loadTestcaseDoc (save_failure 100 fdSample (save_failure 0 fdSample []).1).1
        (generate_testcase_filename fdSample.testCase)
      = some { testCase := fdSample.testCase, created := 0, total_failures := 2,
               unique_errors := 1,
               failure_history := [{ (newFailureRecord 0 fdSample
                   (generate_failure_id fdSample.testCase fdSample.error)) with
                 last_seen := some 100 }],
               last_updated := some 100 } :=
  ⟨rfl, by omega, by omega,
    (c1_duplicate_within_window 0 100 fdSample [] rfl (by omega) (by omega)).1⟩

end KnowledgeDB
